import Mathlib

/-!
# Verification of the docutag/scraper content-ingestion service

A shallow embedding of the Go source of the scraper repository.

Modelling conventions, used consistently below:
* A Go `string` is modelled as a `List Char` (one entry per rune).  All inputs
  appearing in the claims are ASCII, where Go's byte length and the rune length
  coincide.
* Go `float64` is modelled by `ℚ`.  Every score in the source is a finite sum of
  decimal constants followed by a clamp to `[0,1]`; the properties proved below
  (bounds, orderings separated by at least 0.05, exact clamp saturation) are
  insensitive to the difference between binary floating point and exact
  rational arithmetic.
* Go `int` / `int64` are modelled by `Int`; counts that the source only ever
  holds as non-negative values are modelled by `Nat`.
* `strings.ToLower` / `unicode.ToLower` are modelled by the ASCII case mapping;
  the full Unicode case tables of the Go runtime are out of scope and none of
  the claims' inputs exercise them.
* Stateful components (PostgreSQL tables, the filesystem) are modelled as
  explicit state values threaded through the operations; `time.Now()` becomes
  an explicit parameter.
-/

namespace Scraper

/-
The Batteries `Rat` arithmetic operations are marked `@[irreducible]`; making
them semireducible again lets concrete score computations be checked by
`decide`.
-/
unseal Rat.add Rat.sub Rat.mul Rat.inv Rat.ofScientific

/-- A Go string, as a list of runes. -/
abbrev GoStr := List Char

/-- ASCII case mapping, modelling `strings.ToLower` on one rune. -/
def lowerChar (c : Char) : Char :=
  if 'A' ≤ c ∧ c ≤ 'Z' then Char.ofNat (c.toNat + 32) else c

theorem charToNat_ofNat (n : Nat) (h : n.isValidChar) : (Char.ofNat n).toNat = n := by
  simp [Char.ofNat, Char.ofNatAux, dif_pos h, Char.toNat, UInt32.toNat, BitVec.toNat_ofNatLt]

theorem charLe_iff (a b : Char) : (a ≤ b) ↔ (a.toNat ≤ b.toNat) := by
  rw [Char.le_def]
  simp [Char.toNat, UInt32.le_def, BitVec.le_def, UInt32.toNat]

theorem lowerChar_idem (c : Char) : lowerChar (lowerChar c) = lowerChar c := by
  unfold lowerChar
  by_cases h : 'A' ≤ c ∧ c ≤ 'Z'
  · rw [if_pos h]
    have hA : ('A' : Char).toNat = 65 := by decide
    have hZ : ('Z' : Char).toNat = 90 := by decide
    have h1 : 65 ≤ c.toNat := by rw [← hA]; exact (charLe_iff _ _).mp h.1
    have h2 : c.toNat ≤ 90 := by rw [← hZ]; exact (charLe_iff _ _).mp h.2
    have hv : (c.toNat + 32).isValidChar := by left; omega
    have ht : (Char.ofNat (c.toNat + 32)).toNat = c.toNat + 32 := charToNat_ofNat _ hv
    rw [if_neg]
    intro hcon
    have := (charLe_iff _ _).mp hcon.2
    rw [ht, hZ] at this
    omega
  · rw [if_neg h, if_neg h]

/-- `strings.ToLower`. -/
def goToLower (s : GoStr) : GoStr := s.map lowerChar

/-- `strings.Contains(s, pat)`: `pat` occurs as a contiguous substring of `s`. -/
def containsSub (s pat : GoStr) : Bool :=
  pat.isPrefixOf s ||
    match s with
    | [] => false
    | _ :: rest => containsSub rest pat

/-- `strings.HasPrefix`. -/
def hasPrefixSub (s pat : GoStr) : Bool := pat.isPrefixOf s

/-- `strings.HasSuffix`. -/
def hasSuffixSub (s pat : GoStr) : Bool := pat.isSuffixOf s

/-- Scanning loop of `strings.Count`, bounded by a fuel parameter so that it
stays structurally recursive; every step consumes at least one rune of `s`, so
`s.length` fuel always suffices for a nonempty pattern. -/
def countSubFuel : Nat → GoStr → GoStr → Nat
  | 0, _, _ => 0
  | fuel + 1, s, pat =>
    match s with
    | [] => 0
    | c :: rest =>
      if pat.isPrefixOf (c :: rest) then
        1 + countSubFuel fuel ((c :: rest).drop pat.length) pat
      else
        countSubFuel fuel rest pat

/-- `strings.Count(s, pat)` for a nonempty pattern: number of non-overlapping
occurrences.  (Go's convention for an empty pattern, rune count + 1, is not
modelled; every call site in the source passes a nonempty literal.) -/
def countSub (s pat : GoStr) : Nat :=
  match pat with
  | [] => 0
  | _ :: _ => countSubFuel s.length s pat

/-- `strings.TrimSuffix`. -/
def trimSuffixSub (s pat : GoStr) : GoStr :=
  if pat.isSuffixOf s then s.take (s.length - pat.length) else s

/-- `strings.ReplaceAll(s, old, new)` for the single-rune replacements used by
the source (`" "`/`"_"` → `"-"`). -/
def replaceAllChar (s : GoStr) (old new : Char) : GoStr :=
  s.map fun c => if c = old then new else c

/-- Drop trailing elements satisfying `p` (right-hand side of `strings.Trim`). -/
def dropRightWhile (p : Char → Bool) (s : GoStr) : GoStr :=
  (s.reverse.dropWhile p).reverse

/-- `strings.Trim(s, cutset)`: remove leading and trailing runes of `cutset`. -/
def goTrim (s : GoStr) (cutset : GoStr) : GoStr :=
  dropRightWhile (fun c => cutset.contains c) (s.dropWhile fun c => cutset.contains c)

/-- Go's `unicode.IsSpace` restricted to the ASCII white space runes. -/
def goIsSpace (c : Char) : Bool :=
  c = ' ' || c = '\t' || c = '\n' || c = '\x0b' || c = '\x0c' || c = '\r'

/-- `strings.Fields`: split around runs of white space, no empty fields. -/
def goFields (s : GoStr) : List GoStr :=
  (s.splitOnP goIsSpace).filter (· ≠ [])

/-- `strings.Split(s, sep)` for a single-rune separator. -/
def splitOnChar (sep : Char) (s : GoStr) : List GoStr :=
  s.splitOn sep

/-- `strings.TrimSpace` (ASCII white space). -/
def goTrimSpace (s : GoStr) : GoStr :=
  dropRightWhile goIsSpace (s.dropWhile goIsSpace)

/-! ## Slug generation (`package slug`) -/

namespace Slug

/-- `transliterate`: the source chains the `x/text` transforms
NFD → remove nonspacing marks → NFC.  Modelled as the identity: these Unicode
normalisation tables are vendored third-party code, the transform leaves ASCII
text (every concrete input below) unchanged, and the universal claims proved
about `Generate` hold for every possible output of this stage because the
subsequent `[^a-z0-9-]+` filter discards whatever it produces. -/
def transliterate (s : GoStr) : GoStr := s

/-- Is the rune kept by the regexp replacement `[^a-z0-9-]+` → `""`? -/
def isSlugChar (c : Char) : Bool :=
  ('a' ≤ c && c ≤ 'z') || ('0' ≤ c && c ≤ '9') || c = '-'

/-- The regexp replacement `-+` → `-`: collapse every run of hyphens to one. -/
def collapseHyphenRuns : GoStr → GoStr
  | [] => []
  | '-' :: '-' :: rest => collapseHyphenRuns ('-' :: rest)
  | c :: rest => c :: collapseHyphenRuns rest

/-- The transformation pipeline of `slug.Generate` before the length cap:
lowercase, transliterate, spaces/underscores to hyphens, strip non-slug runes
(the regexp `[^a-z0-9-]+` → `""`), collapse hyphen runs (`-+` → `-`), trim
hyphens from both ends. -/
def generateCore (s : GoStr) : GoStr :=
  let s := goToLower s
  let s := transliterate s
  let s := replaceAllChar s ' ' '-'
  let s := replaceAllChar s '_' '-'
  let s := s.filter isSlugChar
  let s := collapseHyphenRuns s
  goTrim s ['-']

/-- `slug.Generate` (scraper repository, `package slug`): the pipeline above,
then the result is capped at 100 characters with any hyphen left dangling at
the cut point trimmed (`s = s[:100]; s = strings.TrimRight(s, "-")`). -/
def Generate (s : GoStr) : GoStr :=
  if s = [] then []
  else
    let s := generateCore s
    if s.length > 100 then
      dropRightWhile (· = '-') (s.take 100)
    else s

end Slug

/-! ## Tag normalisation (`normalizeTag`, scraper core) -/

/-- One pass of `strings.ReplaceAll(tag, "--", "-")`: replace non-overlapping
occurrences of `--`, left to right. -/
def replaceDoubleHyphen : GoStr → GoStr
  | [] => []
  | [c] => [c]
  | c :: d :: rest =>
    if c = '-' ∧ d = '-' then '-' :: replaceDoubleHyphen rest
    else c :: replaceDoubleHyphen (d :: rest)

/-- Does the string contain `--`? (`strings.Contains(tag, "--")`, specialised
to the two-rune pattern so that the loop below is easy to reason about). -/
def hasDoubleHyphen : GoStr → Bool
  | [] => false
  | [_] => false
  | c :: d :: rest => (c = '-' && d = '-') || hasDoubleHyphen (d :: rest)

theorem length_replaceDoubleHyphen_le (s : GoStr) :
    (replaceDoubleHyphen s).length ≤ s.length := by
  induction s using replaceDoubleHyphen.induct with
  | case1 => simp [replaceDoubleHyphen]
  | case2 c => simp [replaceDoubleHyphen]
  | case3 c d rest h ih =>
    simp only [replaceDoubleHyphen, if_pos h, List.length_cons]
    omega
  | case4 c d rest h ih =>
    simp only [replaceDoubleHyphen, if_neg h, List.length_cons]
    simp only [List.length_cons] at ih
    omega

theorem length_replaceDoubleHyphen_lt (s : GoStr) (h : hasDoubleHyphen s = true) :
    (replaceDoubleHyphen s).length < s.length := by
  induction s using replaceDoubleHyphen.induct with
  | case1 => simp [hasDoubleHyphen] at h
  | case2 c => simp [hasDoubleHyphen] at h
  | case3 c d rest hcd ih =>
    have := length_replaceDoubleHyphen_le rest
    simp only [replaceDoubleHyphen, if_pos hcd, List.length_cons]
    omega
  | case4 c d rest hcd ih =>
    simp only [hasDoubleHyphen, Bool.or_eq_true, Bool.and_eq_true, decide_eq_true_eq] at h
    have hrest : hasDoubleHyphen (d :: rest) = true := by
      rcases h with h | h
      · exact absurd h hcd
      · exact h
    have := ih hrest
    simp only [replaceDoubleHyphen, if_neg hcd, List.length_cons]
    simp only [List.length_cons] at this
    omega

/-- The loop `for strings.Contains(tag, "--") { tag = ReplaceAll(tag, "--", "-") }`,
bounded by a fuel parameter so it stays structurally recursive (each pass
strictly shrinks the string, so `s.length` fuel always suffices —
`collapseDoubleHyphens_unfold` below recovers the exact loop equation). -/
def collapseDoubleHyphensFuel : Nat → GoStr → GoStr
  | 0, s => s
  | fuel + 1, s =>
    if hasDoubleHyphen s then collapseDoubleHyphensFuel fuel (replaceDoubleHyphen s)
    else s

/-- The hyphen-collapsing loop of `normalizeTag`. -/
def collapseDoubleHyphens (s : GoStr) : GoStr :=
  collapseDoubleHyphensFuel s.length s

theorem hasDoubleHyphen_length (s : GoStr) (h : hasDoubleHyphen s = true) :
    2 ≤ s.length := by
  match s with
  | [] => simp [hasDoubleHyphen] at h
  | [c] => simp [hasDoubleHyphen] at h
  | c :: d :: rest => simp

theorem collapseDoubleHyphensFuel_congr :
    ∀ (f₁ f₂ : Nat) (s : GoStr), s.length ≤ f₁ → s.length ≤ f₂ →
      collapseDoubleHyphensFuel f₁ s = collapseDoubleHyphensFuel f₂ s := by
  intro f₁
  induction f₁ using Nat.strong_induction_on with
  | _ f₁ ih =>
    intro f₂ s h₁ h₂
    match f₁, f₂ with
    | 0, 0 => rfl
    | 0, f₂ + 1 =>
      have hs : s = [] := List.length_eq_zero.mp (Nat.le_zero.mp h₁)
      subst hs
      simp [collapseDoubleHyphensFuel, hasDoubleHyphen]
    | f₁ + 1, 0 =>
      have hs : s = [] := List.length_eq_zero.mp (Nat.le_zero.mp h₂)
      subst hs
      simp [collapseDoubleHyphensFuel, hasDoubleHyphen]
    | f₁ + 1, f₂ + 1 =>
      simp only [collapseDoubleHyphensFuel]
      by_cases h : hasDoubleHyphen s = true
      · rw [if_pos h, if_pos h]
        have hlt := length_replaceDoubleHyphen_lt s h
        exact ih f₁ (Nat.lt_succ_self f₁) f₂ (replaceDoubleHyphen s)
          (by omega) (by omega)
      · rw [if_neg h, if_neg h]

theorem collapseDoubleHyphens_unfold (s : GoStr) :
    collapseDoubleHyphens s =
      if hasDoubleHyphen s then collapseDoubleHyphens (replaceDoubleHyphen s)
      else s := by
  unfold collapseDoubleHyphens
  by_cases h : hasDoubleHyphen s = true
  · have h2 := hasDoubleHyphen_length s h
    have hlt := length_replaceDoubleHyphen_lt s h
    rw [if_pos h]
    cases hl : s.length with
    | zero => omega
    | succ n =>
      rw [hl] at hlt
      simp only [collapseDoubleHyphensFuel, if_pos h]
      exact collapseDoubleHyphensFuel_congr n (replaceDoubleHyphen s).length
        (replaceDoubleHyphen s) (by omega) (Nat.le_refl _)
  · rw [if_neg h]
    cases hl : s.length with
    | zero => rfl
    | succ n => simp only [collapseDoubleHyphensFuel, if_neg h]

/-- `normalizeTag` (scraper core): lowercase; spaces and underscores to
hyphens; collapse repeated hyphens; trim leading/trailing hyphens and white
space (`strings.Trim(tag, "- \t\n\r")`). -/
def normalizeTag (tag : GoStr) : GoStr :=
  let tag := goToLower tag
  let tag := replaceAllChar tag ' ' '-'
  let tag := replaceAllChar tag '_' '-'
  let tag := collapseDoubleHyphens tag
  goTrim tag ['-', ' ', '\t', '\n', '\r']

/-! ### Auxiliary lemmas about the string helpers -/

theorem head_dropWhile_false (p : Char → Bool) :
    ∀ (l : GoStr) (c : Char), (l.dropWhile p).head? = some c → p c = false := by
  intro l
  induction l with
  | nil => intro c h; simp [List.dropWhile] at h
  | cons a t ih =>
    intro c h
    by_cases hp : p a
    · rw [List.dropWhile_cons_of_pos hp] at h
      exact ih c h
    · rw [List.dropWhile_cons_of_neg hp] at h
      simp only [List.head?_cons, Option.some.injEq] at h
      subst h
      simpa using hp

theorem mem_dropWhile_sub {p : Char → Bool} {l : GoStr} {c : Char}
    (h : c ∈ l.dropWhile p) : c ∈ l :=
  (List.dropWhile_suffix p).sublist.subset h

theorem dropWhile_eq_self_of_head (p : Char → Bool) (l : GoStr)
    (h : ∀ c, l.head? = some c → p c = false) : l.dropWhile p = l := by
  cases l with
  | nil => rfl
  | cons a t => exact List.dropWhile_cons_of_neg (by simp [h a rfl])

theorem dropRightWhile_eq_reverse (p : Char → Bool) (l : GoStr) :
    dropRightWhile p l = (l.reverse.dropWhile p).reverse := rfl

theorem getLast_dropRightWhile_false (p : Char → Bool) (l : GoStr) (c : Char)
    (h : (dropRightWhile p l).getLast? = some c) : p c = false := by
  rw [dropRightWhile_eq_reverse, List.getLast?_reverse] at h
  exact head_dropWhile_false p l.reverse c h

theorem mem_dropRightWhile_sub {p : Char → Bool} {l : GoStr} {c : Char}
    (h : c ∈ dropRightWhile p l) : c ∈ l := by
  rw [dropRightWhile_eq_reverse, List.mem_reverse] at h
  have := mem_dropWhile_sub h
  rwa [List.mem_reverse] at this

theorem dropRightWhile_eq_self (p : Char → Bool) (l : GoStr)
    (h : ∀ c, l.getLast? = some c → p c = false) : dropRightWhile p l = l := by
  rw [dropRightWhile_eq_reverse, dropWhile_eq_self_of_head p l.reverse, List.reverse_reverse]
  intro c hc
  apply h
  rw [← List.getLast?_reverse, List.reverse_reverse] at hc
  exact hc

theorem dropRightWhile_prefix_self (p : Char → Bool) (l : GoStr) :
    dropRightWhile p l <+: l := by
  rw [dropRightWhile_eq_reverse]
  refine (List.reverse_suffix).mp ?_
  rw [List.reverse_reverse]
  exact List.dropWhile_suffix p

theorem prefix_head?_eq {l₁ l₂ : GoStr} {c : Char} (h : l₁ <+: l₂)
    (hc : l₁.head? = some c) : l₂.head? = some c := by
  obtain ⟨t, rfl⟩ := h
  cases l₁ with
  | nil => simp at hc
  | cons a l => simpa using hc

theorem dropRightWhile_idem (p : Char → Bool) (l : GoStr) :
    dropRightWhile p (dropRightWhile p l) = dropRightWhile p l := by
  apply dropRightWhile_eq_self
  intro c hc
  exact getLast_dropRightWhile_false p l c hc

theorem mem_goTrim_sub {l cut : GoStr} {c : Char} (h : c ∈ goTrim l cut) : c ∈ l :=
  mem_dropWhile_sub (mem_dropRightWhile_sub h)

/-- `goTrim` is idempotent. -/
theorem goTrim_idem (l cut : GoStr) : goTrim (goTrim l cut) cut = goTrim l cut := by
  unfold goTrim
  have hstep : (dropRightWhile (fun c => cut.contains c)
      (l.dropWhile fun c => cut.contains c)).dropWhile (fun c => cut.contains c) =
      dropRightWhile (fun c => cut.contains c) (l.dropWhile fun c => cut.contains c) := by
    apply dropWhile_eq_self_of_head
    intro c hc
    exact head_dropWhile_false _ l c
      (prefix_head?_eq (dropRightWhile_prefix_self _ _) hc)
  rw [hstep, dropRightWhile_idem]

/-! ### `hasDoubleHyphen` as a substring property -/

theorem hasDoubleHyphen_cons_of {l : GoStr} (c : Char)
    (h : hasDoubleHyphen l = true) : hasDoubleHyphen (c :: l) = true := by
  cases l with
  | nil => simp [hasDoubleHyphen] at h
  | cons d rest =>
    simp only [hasDoubleHyphen, Bool.or_eq_true]
    right
    exact h

theorem hasDoubleHyphen_iff (l : GoStr) :
    hasDoubleHyphen l = true ↔ ∃ l₁ l₂, l = l₁ ++ '-' :: '-' :: l₂ := by
  constructor
  · intro h
    induction l with
    | nil => simp [hasDoubleHyphen] at h
    | cons a t ih =>
      cases t with
      | nil => simp [hasDoubleHyphen] at h
      | cons d rest =>
        simp only [hasDoubleHyphen, Bool.or_eq_true, Bool.and_eq_true,
          decide_eq_true_eq] at h
        rcases h with ⟨ha, hd⟩ | h
        · subst ha; subst hd
          exact ⟨[], rest, rfl⟩
        · obtain ⟨l₁, l₂, heq⟩ := ih h
          exact ⟨a :: l₁, l₂, by rw [List.cons_append, ← heq]⟩
  · rintro ⟨l₁, l₂, rfl⟩
    induction l₁ with
    | nil => simp [hasDoubleHyphen]
    | cons a t ih => exact hasDoubleHyphen_cons_of a ih

theorem hasDoubleHyphen_of_suffix {l₁ l₂ : GoStr} (h : l₁ <:+ l₂)
    (hd : hasDoubleHyphen l₁ = true) : hasDoubleHyphen l₂ = true := by
  obtain ⟨t, rfl⟩ := h
  obtain ⟨a, b, rfl⟩ := (hasDoubleHyphen_iff l₁).mp hd
  exact (hasDoubleHyphen_iff _).mpr ⟨t ++ a, b, by simp⟩

theorem hasDoubleHyphen_of_prefix {l₁ l₂ : GoStr} (h : l₁ <+: l₂)
    (hd : hasDoubleHyphen l₁ = true) : hasDoubleHyphen l₂ = true := by
  obtain ⟨t, rfl⟩ := h
  obtain ⟨a, b, rfl⟩ := (hasDoubleHyphen_iff l₁).mp hd
  exact (hasDoubleHyphen_iff _).mpr ⟨a, b ++ t, by simp⟩

theorem hasDoubleHyphen_goTrim {l cut : GoStr}
    (h : hasDoubleHyphen l = false) : hasDoubleHyphen (goTrim l cut) = false := by
  by_contra hcon
  rw [Bool.not_eq_false] at hcon
  have h1 : hasDoubleHyphen (l.dropWhile fun c => cut.contains c) = true :=
    hasDoubleHyphen_of_prefix (dropRightWhile_prefix_self _ _) hcon
  have h2 : hasDoubleHyphen l = true :=
    hasDoubleHyphen_of_suffix (List.dropWhile_suffix _) h1
  rw [h] at h2
  exact Bool.false_ne_true h2

/-! ### Properties of the hyphen-collapsing loop -/

theorem mem_replaceDoubleHyphen_sub {s : GoStr} {c : Char}
    (h : c ∈ replaceDoubleHyphen s) : c ∈ s := by
  induction s using replaceDoubleHyphen.induct with
  | case1 =>
    simp only [replaceDoubleHyphen] at h
    exact h
  | case2 d =>
    simp only [replaceDoubleHyphen] at h
    exact h
  | case3 a d rest had ih =>
    rw [replaceDoubleHyphen, if_pos had] at h
    rcases List.mem_cons.mp h with h | h
    · subst h; simp [had.1]
    · simp [ih h]
  | case4 a d rest had ih =>
    rw [replaceDoubleHyphen, if_neg had] at h
    rcases List.mem_cons.mp h with h | h
    · subst h; simp
    · rcases List.mem_cons.mp (ih h) with h | h
      · subst h; simp
      · simp [h]

theorem mem_collapseDoubleHyphensFuel_sub :
    ∀ (fuel : Nat) {s : GoStr} {c : Char},
      c ∈ collapseDoubleHyphensFuel fuel s → c ∈ s := by
  intro fuel
  induction fuel with
  | zero => intro s c h; exact h
  | succ n ih =>
    intro s c h
    rw [collapseDoubleHyphensFuel] at h
    by_cases hd : hasDoubleHyphen s = true
    · rw [if_pos hd] at h
      exact mem_replaceDoubleHyphen_sub (ih h)
    · rwa [if_neg hd] at h

theorem mem_collapseDoubleHyphens_sub {s : GoStr} {c : Char}
    (h : c ∈ collapseDoubleHyphens s) : c ∈ s :=
  mem_collapseDoubleHyphensFuel_sub s.length h

theorem hasDoubleHyphen_collapse_aux :
    ∀ (n : Nat) (s : GoStr), s.length ≤ n →
      hasDoubleHyphen (collapseDoubleHyphens s) = false := by
  intro n
  induction n with
  | zero =>
    intro s hs
    have : s = [] := List.length_eq_zero.mp (Nat.le_zero.mp hs)
    subst this
    simp [collapseDoubleHyphens, collapseDoubleHyphensFuel, hasDoubleHyphen]
  | succ n ih =>
    intro s hs
    rw [collapseDoubleHyphens_unfold]
    by_cases hd : hasDoubleHyphen s = true
    · rw [if_pos hd]
      have := length_replaceDoubleHyphen_lt s hd
      exact ih (replaceDoubleHyphen s) (by omega)
    · rw [if_neg hd]
      exact Bool.not_eq_true _ |>.mp hd

theorem hasDoubleHyphen_collapse (s : GoStr) :
    hasDoubleHyphen (collapseDoubleHyphens s) = false :=
  hasDoubleHyphen_collapse_aux s.length s (Nat.le_refl _)

/-! ### Map-based helper lemmas -/

theorem mem_goToLower {s : GoStr} {c : Char} (h : c ∈ goToLower s) :
    lowerChar c = c := by
  obtain ⟨x, _, rfl⟩ := List.mem_map.mp h
  exact lowerChar_idem x

theorem goToLower_eq_self {s : GoStr} (h : ∀ c ∈ s, lowerChar c = c) :
    goToLower s = s := by
  unfold goToLower
  induction s with
  | nil => rfl
  | cons a t ih =>
    simp only [List.map_cons, List.cons.injEq]
    exact ⟨h a (List.mem_cons_self a t), ih fun c hc => h c (List.mem_cons_of_mem a hc)⟩

theorem mem_replaceAllChar {s : GoStr} {old new c : Char}
    (h : c ∈ replaceAllChar s old new) : c = new ∨ c ∈ s := by
  obtain ⟨x, hx, rfl⟩ := List.mem_map.mp h
  by_cases hxo : x = old
  · left; simp [hxo]
  · right; simpa [hxo] using hx

theorem mem_replaceAllChar_ne {s : GoStr} {old new c : Char} (hne : new ≠ old)
    (h : c ∈ replaceAllChar s old new) : c ≠ old := by
  obtain ⟨x, hx, rfl⟩ := List.mem_map.mp h
  by_cases hxo : x = old
  · simp [hxo, hne]
  · simp [hxo]

theorem replaceAllChar_eq_self {s : GoStr} {old new : Char}
    (h : ∀ c ∈ s, c ≠ old) : replaceAllChar s old new = s := by
  unfold replaceAllChar
  induction s with
  | nil => rfl
  | cons a t ih =>
    simp only [List.map_cons, List.cons.injEq]
    constructor
    · simp [h a (List.mem_cons_self a t)]
    · exact ih fun c hc => h c (List.mem_cons_of_mem a hc)

/-- C10: `normalizeTag` is idempotent — normalising an already-normalised tag
changes nothing: the output contains no upper-case letters, no spaces or
underscores, no repeated hyphens, and no leading/trailing trim characters, so
every stage of a second pass is the identity. -/
theorem normalizeTag_idempotent (t : GoStr) :
    normalizeTag (normalizeTag t) = normalizeTag t := by
  have hdef : normalizeTag t =
      goTrim (collapseDoubleHyphens
        (replaceAllChar (replaceAllChar (goToLower t) ' ' '-') '_' '-'))
        ['-', ' ', '\t', '\n', '\r'] := rfl
  have hmem : ∀ c ∈ normalizeTag t, lowerChar c = c ∧ c ≠ ' ' ∧ c ≠ '_' := by
    intro c hc
    rw [hdef] at hc
    have hc2 := mem_collapseDoubleHyphens_sub (mem_goTrim_sub hc)
    refine ⟨?_, ?_, ?_⟩
    · rcases mem_replaceAllChar hc2 with h | h
      · subst h; decide
      · rcases mem_replaceAllChar h with h | h
        · subst h; decide
        · exact mem_goToLower h
    · rcases mem_replaceAllChar hc2 with h | h
      · subst h; decide
      · exact mem_replaceAllChar_ne (by decide) h
    · exact mem_replaceAllChar_ne (by decide) hc2
  have hdd : hasDoubleHyphen (normalizeTag t) = false := by
    rw [hdef]
    exact hasDoubleHyphen_goTrim (hasDoubleHyphen_collapse _)
  have h1 : goToLower (normalizeTag t) = normalizeTag t :=
    goToLower_eq_self fun c hc => (hmem c hc).1
  have h2 : replaceAllChar (normalizeTag t) ' ' '-' = normalizeTag t :=
    replaceAllChar_eq_self fun c hc => (hmem c hc).2.1
  have h3 : replaceAllChar (normalizeTag t) '_' '-' = normalizeTag t :=
    replaceAllChar_eq_self fun c hc => (hmem c hc).2.2
  have h4 : collapseDoubleHyphens (normalizeTag t) = normalizeTag t := by
    rw [collapseDoubleHyphens_unfold, if_neg]
    simp [hdd]
  have h5 : goTrim (normalizeTag t) ['-', ' ', '\t', '\n', '\r'] = normalizeTag t := by
    rw [hdef, goTrim_idem]
  have houter : normalizeTag (normalizeTag t) =
      goTrim (collapseDoubleHyphens
        (replaceAllChar (replaceAllChar (goToLower (normalizeTag t)) ' ' '-') '_' '-'))
        ['-', ' ', '\t', '\n', '\r'] := rfl
  rw [houter, h1, h2, h3, h4, h5]

/-! ### Slug generation: length cap and trailing hyphen -/

theorem length_dropRightWhile_le (p : Char → Bool) (l : GoStr) :
    (dropRightWhile p l).length ≤ l.length := by
  rw [dropRightWhile_eq_reverse]
  calc ((l.reverse.dropWhile p).reverse).length
      = (l.reverse.dropWhile p).length := List.length_reverse _
    _ ≤ l.reverse.length := (List.dropWhile_suffix p).sublist.length_le
    _ = l.length := List.length_reverse _

theorem contains_singleton_eq (c d : Char) : ([d] : GoStr).contains c = (c == d) := by
  by_cases h : c = d
  · simp [h]
  · simp [List.contains, h, beq_eq_false_iff_ne.mpr h]

/-- C8: `slug.Generate` always returns at most 100 characters, the result
never ends in a hyphen (a hyphen left dangling at the 100-character truncation
point is trimmed), and `Generate "Hello World" = "hello-world"`. -/
theorem generate_capped_no_trailing_hyphen :
    (∀ s : GoStr, (Slug.Generate s).length ≤ 100 ∧
      ((Slug.Generate s).getLast? == some '-') = false) ∧
    Slug.Generate "Hello World".data = "hello-world".data := by
  constructor
  · intro s
    by_cases hs : s = []
    · subst hs
      exact ⟨by simp [Slug.Generate], by simp [Slug.Generate]⟩
    · have hdef : Slug.Generate s =
        if (Slug.generateCore s).length > 100 then
          dropRightWhile (fun c => decide (c = '-')) ((Slug.generateCore s).take 100)
        else Slug.generateCore s := by
        unfold Slug.Generate
        rw [if_neg hs]
      rw [hdef]
      by_cases hlen : (Slug.generateCore s).length > 100
      · rw [if_pos hlen]
        refine ⟨?_, ?_⟩
        · calc (dropRightWhile (fun c => decide (c = '-'))
              ((Slug.generateCore s).take 100)).length
              ≤ ((Slug.generateCore s).take 100).length := length_dropRightWhile_le _ _
            _ ≤ 100 := by rw [List.length_take]; omega
        · cases hc : (dropRightWhile (fun c => decide (c = '-'))
              ((Slug.generateCore s).take 100)).getLast? with
          | none => rfl
          | some c =>
            have hfalse := getLast_dropRightWhile_false _ _ _ hc
            have hcne : c ≠ '-' := by simpa using hfalse
            simp [hcne]
      · rw [if_neg hlen]
        refine ⟨by omega, ?_⟩
        cases hc : (Slug.generateCore s).getLast? with
        | none => rfl
        | some c =>
          have hcontains : (['-'] : GoStr).contains c = false :=
            getLast_dropRightWhile_false _ _ _ hc
          have hcne : c ≠ '-' := by
            rw [contains_singleton_eq] at hcontains
            exact fun h => by simp [h] at hcontains
          simp [hcne]
  · decide

/-! ## Data model (`package models`) -/

/-- `models.ImageInfo`.  The EXIF blob is carried as an opaque serialised
payload (`exifData`); its internal structure is never inspected by the
operations verified here. -/
structure ImageInfo where
  id : GoStr := []
  url : GoStr := []
  altText : GoStr := []
  summary : GoStr := []
  tags : List GoStr := []
  base64Data : GoStr := []
  scraperUUID : GoStr := []
  tombstoneDatetime : Option Int := none
  width : Int := 0
  height : Int := 0
  fileSizeBytes : Int := 0
  contentType : GoStr := []
  exifData : Option GoStr := none
  extractedText : GoStr := []
  filePath : GoStr := []
  slug : GoStr := []
  relevanceScore : ℚ := 0
  deriving DecidableEq

/-- `models.LinkScore`. -/
structure LinkScore where
  url : GoStr
  score : ℚ
  reason : GoStr
  categories : List GoStr
  isRecommended : Bool
  maliciousIndicators : List GoStr
  aiUsed : Bool
  deriving DecidableEq

/-! ## Image relevance scoring (`scoreImageRelevance`, scraper core) -/

/-- The final clamp shared by the scoring functions
(`if score < 0.0 { score = 0.0 }; if score > 1.0 { score = 1.0 }`). -/
def clamp01 (score : ℚ) : ℚ :=
  let score := if score < 0 then 0 else score
  if score > 1 then 1 else score

/-- Dimension block of `scoreImageRelevance`: size preference, aspect-ratio
penalties, and the fixed ad-banner dimensions. -/
def dimensionAdjust (img : ImageInfo) (score : ℚ) : ℚ :=
  if img.width > 0 ∧ img.height > 0 then
    let score :=
      if img.width ≥ 800 ∧ img.width ≤ 2000 ∧ img.height ≥ 400 then score + 0.2
      else if img.width ≥ 400 ∧ img.width < 800 then score + 0.1
      else if img.width < 200 ∨ img.height < 100 then score - 0.2
      else score
    let aspect : ℚ := (img.width : ℚ) / (img.height : ℚ)
    let score :=
      if aspect ≥ 1.3 ∧ aspect ≤ 2.1 then score + 0.1
      else if aspect > 5.0 ∨ aspect < 0.5 then score - 0.3
      else if aspect > 3.0 ∨ aspect < 0.7 then score - 0.15
      else score
    if (img.width = 728 ∧ img.height = 90) ∨ (img.width = 468 ∧ img.height = 60) ∨
        (img.width = 234 ∧ img.height = 60) ∨ (img.width = 120 ∧ img.height = 600) ∨
        (img.width = 300 ∧ img.height = 250) ∨ (img.width = 336 ∧ img.height = 280) then
      score - 0.4
    else score
  else score

/-- Position block of `scoreImageRelevance`. -/
def positionAdjust (position totalImages : Int) (score : ℚ) : ℚ :=
  if totalImages > 0 then
    let posFrac : ℚ := (position : ℚ) / (totalImages : ℚ)
    if posFrac ≤ 0.25 then score + 0.2
    else if posFrac ≤ 0.5 then score + 0.1
    else if posFrac > 0.75 then score - 0.1
    else score
  else score

/-- Per-tag scoring of `scoreImageRelevance`: infographic-style tags −0.4,
UI-element tags −0.3, photographic tags +0.1. -/
def tagAdjust (tag : GoStr) (score : ℚ) : ℚ :=
  let tagLower := goToLower tag
  let score :=
    if tagLower = "banner".data ∨ containsSub tagLower "infographic".data ∨
        containsSub tagLower "chart".data ∨ containsSub tagLower "diagram".data ∨
        containsSub tagLower "graph".data ∨ containsSub tagLower "flowchart".data ∨
        containsSub tagLower "visualization".data ∨
        containsSub tagLower "data visualization".data ∨
        containsSub tagLower "statistics".data then score - 0.4
    else score
  let score :=
    if containsSub tagLower "icon".data ∨ containsSub tagLower "logo".data ∨
        containsSub tagLower "button".data ∨ containsSub tagLower "avatar".data then
      score - 0.3
    else score
  if containsSub tagLower "photo".data ∨ containsSub tagLower "photograph".data ∨
      containsSub tagLower "portrait".data ∨ containsSub tagLower "landscape".data ∨
      containsSub tagLower "person".data ∨ containsSub tagLower "people".data then
    score + 0.1
  else score

/-- The tag loop of `scoreImageRelevance`. -/
def tagsAdjust (tags : List GoStr) (score : ℚ) : ℚ :=
  tags.foldl (fun score tag => tagAdjust tag score) score

/-- Alt-text block of `scoreImageRelevance`: count title words longer than 3
runes occurring in the alt text, plus a one-off bonus when any article tag
longer than 3 runes occurs in the alt text. -/
def altTextAdjust (img : ImageInfo) (articleTitle : GoStr)
    (articleTags : List GoStr) (score : ℚ) : ℚ :=
  if img.altText ≠ [] ∧ articleTitle ≠ [] then
    let altLower := goToLower img.altText
    let titleLower := goToLower articleTitle
    let titleWords := goFields titleLower
    let matchCount :=
      (titleWords.filter fun word => word.length > 3 && containsSub altLower word).length
    let score :=
      if matchCount > 2 then score + 0.15
      else if matchCount > 0 then score + 0.05
      else score
    if articleTags.any fun tag => tag.length > 3 && containsSub altLower (goToLower tag) then
      score + 0.05
    else score
  else score

/-- Summary block of `scoreImageRelevance`. -/
def summaryAdjust (img : ImageInfo) (score : ℚ) : ℚ :=
  if img.summary ≠ [] then
    let summaryLower := goToLower img.summary
    if containsSub summaryLower "infographic".data ∨
        containsSub summaryLower "chart".data ∨
        containsSub summaryLower "diagram".data ∨
        containsSub summaryLower "graph".data ∨
        containsSub summaryLower "data visualization".data then score - 0.3
    else score
  else score

/-- `scoreImageRelevance` (scraper core): starts from the neutral score 0.5,
applies the dimension, position, tag, alt-text and summary blocks in the order
of the source, and clamps to `[0, 1]`. -/
def scoreImageRelevance (img : ImageInfo) (position totalImages : Int)
    (articleTitle : GoStr) (articleTags : List GoStr) : ℚ :=
  clamp01 (summaryAdjust img
    (altTextAdjust img articleTitle articleTags
      (tagsAdjust img.tags
        (positionAdjust position totalImages
          (dimensionAdjust img 0.5)))))

/-! ### Bounds and position monotonicity of the relevance score -/

theorem clamp01_nonneg (q : ℚ) : 0 ≤ clamp01 q := by
  unfold clamp01
  dsimp only
  split_ifs <;> linarith

theorem clamp01_le_one (q : ℚ) : clamp01 q ≤ 1 := by
  unfold clamp01
  dsimp only
  split_ifs <;> linarith

/-- C1: for every image, position, total count, title and tag list the
relevance score lies in the closed interval `[0, 1]` — the source clamps the
accumulated score as its final step. -/
theorem scoreImageRelevance_in_unit_interval (img : ImageInfo)
    (position totalImages : Int) (articleTitle : GoStr) (articleTags : List GoStr) :
    0 ≤ scoreImageRelevance img position totalImages articleTitle articleTags ∧
      scoreImageRelevance img position totalImages articleTitle articleTags ≤ 1 := by
  unfold scoreImageRelevance
  exact ⟨clamp01_nonneg _, clamp01_le_one _⟩

set_option maxHeartbeats 2000000 in
theorem dimensionAdjust_add (img : ImageInfo) (score : ℚ) :
    dimensionAdjust img score = score + dimensionAdjust img 0 := by
  unfold dimensionAdjust
  dsimp only
  split_ifs <;> ring

theorem positionAdjust_add (position totalImages : Int) (score : ℚ) :
    positionAdjust position totalImages score =
      score + positionAdjust position totalImages 0 := by
  unfold positionAdjust
  dsimp only
  split_ifs <;> ring

theorem tagAdjust_add (tag : GoStr) (score : ℚ) :
    tagAdjust tag score = score + tagAdjust tag 0 := by
  unfold tagAdjust
  dsimp only
  split_ifs <;> ring

theorem altTextAdjust_add (img : ImageInfo) (articleTitle : GoStr)
    (articleTags : List GoStr) (score : ℚ) :
    altTextAdjust img articleTitle articleTags score =
      score + altTextAdjust img articleTitle articleTags 0 := by
  unfold altTextAdjust
  dsimp only
  split_ifs <;> ring

theorem summaryAdjust_add (img : ImageInfo) (score : ℚ) :
    summaryAdjust img score = score + summaryAdjust img 0 := by
  unfold summaryAdjust
  dsimp only
  split_ifs <;> ring

theorem tagsAdjust_add (tags : List GoStr) (score : ℚ) :
    tagsAdjust tags score = score + tagsAdjust tags 0 := by
  induction tags generalizing score with
  | nil => simp [tagsAdjust]
  | cons t ts ih =>
    unfold tagsAdjust at *
    simp only [List.foldl_cons]
    rw [ih (tagAdjust t score), ih (tagAdjust t 0), tagAdjust_add t score]
    ring

/-- The relevance score decomposes as a clamp of the sum of the individual
blocks; the position contribution commutes to the last summand. -/
theorem scoreImageRelevance_decompose (img : ImageInfo) (position totalImages : Int)
    (articleTitle : GoStr) (articleTags : List GoStr) :
    scoreImageRelevance img position totalImages articleTitle articleTags =
      clamp01 (dimensionAdjust img 0.5 + tagsAdjust img.tags 0 +
        altTextAdjust img articleTitle articleTags 0 + summaryAdjust img 0 +
        positionAdjust position totalImages 0) := by
  unfold scoreImageRelevance
  rw [summaryAdjust_add, altTextAdjust_add, tagsAdjust_add, positionAdjust_add]
  ring_nf

theorem positionAdjust_first_of_ten : positionAdjust 0 10 0 = 0.2 := by decide

theorem positionAdjust_last_of_ten : positionAdjust 9 10 0 = -(0.1) := by decide

theorem clamp01_add_lt (x a b : ℚ) (hab : a < b) :
    clamp01 (x + a) ≤ clamp01 (x + b) ∧
      (0 < clamp01 (x + b) → clamp01 (x + a) < 1 →
        clamp01 (x + a) < clamp01 (x + b)) := by
  unfold clamp01
  dsimp only
  constructor
  · split_ifs <;> linarith
  · intro h1 h2
    split_ifs at * <;> linarith

/-- C4 counterexample: for an image carrying four `chart` tags (tag penalties
stack, −0.4 each) the pre-clamp scores at positions 0 and 9 of 10 are both
negative, so both clamp to 0.0 and the position-0 score is *not* strictly
greater than the position-9 score. -/
theorem scoreImageRelevance_position_strictness_fails :
    ¬ (scoreImageRelevance
        { tags := ["chart".data, "chart".data, "chart".data, "chart".data] }
        0 10 "economy report".data [] >
      scoreImageRelevance
        { tags := ["chart".data, "chart".data, "chart".data, "chart".data] }
        9 10 "economy report".data []) := by
  decide

/-- C4 (amended): for an identical image the score at position 0 of 10 is at
least the score at position 9 of 10, and strictly greater whenever the clamp
does not saturate both scores at the same bound — i.e. whenever the position-0
score is positive and the position-9 score is below 1. -/
theorem scoreImageRelevance_position_monotone (img : ImageInfo)
    (articleTitle : GoStr) (articleTags : List GoStr) :
    scoreImageRelevance img 9 10 articleTitle articleTags ≤
      scoreImageRelevance img 0 10 articleTitle articleTags ∧
      (0 < scoreImageRelevance img 0 10 articleTitle articleTags →
        scoreImageRelevance img 9 10 articleTitle articleTags < 1 →
        scoreImageRelevance img 9 10 articleTitle articleTags <
          scoreImageRelevance img 0 10 articleTitle articleTags) := by
  rw [scoreImageRelevance_decompose img 0 10 articleTitle articleTags,
    scoreImageRelevance_decompose img 9 10 articleTitle articleTags,
    positionAdjust_first_of_ten, positionAdjust_last_of_ten]
  exact clamp01_add_lt _ _ _ (by norm_num)

/-- Witness for the amended C4: a default image scores 0.4 at position 9 and
0.7 at position 0 of 10. -/
theorem scoreImageRelevance_position_monotone_witness :
    scoreImageRelevance {} 9 10 [] [] < scoreImageRelevance {} 0 10 [] [] :=
  (scoreImageRelevance_position_monotone {} [] []).2 (by decide) (by decide)

/-! ## Rule-based content scoring (`scoreContentFallback`, scraper core) -/

/-- The `blockedDomains` map of `scoreContentFallback`, in source order.  (A Go
`map` iterates in unspecified order; the function returns on the first match,
and every input analysed below matches at most one entry, for which the order
is irrelevant.) -/
def blockedDomains : List (GoStr × GoStr) :=
  [("facebook.com".data, "social-media".data),
   ("twitter.com".data, "social-media".data),
   ("x.com".data, "social-media".data),
   ("instagram.com".data, "social-media".data),
   ("tiktok.com".data, "social-media".data),
   ("reddit.com".data, "forum".data),
   ("linkedin.com".data, "social-media".data),
   ("pinterest.com".data, "social-media".data),
   ("snapchat.com".data, "social-media".data),
   ("bet".data, "gambling".data),
   ("casino".data, "gambling".data),
   ("poker".data, "gambling".data),
   ("betting".data, "gambling".data),
   ("xxx".data, "adult-content".data),
   ("porn".data, "adult-content".data),
   ("adult".data, "adult-content".data),
   ("cannabis".data, "drugs".data),
   ("weed".data, "drugs".data),
   ("ebay.com".data, "marketplace".data),
   ("amazon.com".data, "marketplace".data),
   ("craigslist.org".data, "marketplace".data)]

/-- Is a trimmed line counted as a bullet/numbered-list line?  (The two
non-ASCII prefixes appear in the source file in exactly this mojibake form.) -/
def isBulletLine (trimmed : GoStr) : Bool :=
  hasPrefixSub trimmed "-".data || hasPrefixSub trimmed "â€¢".data ||
    hasPrefixSub trimmed "*".data || hasPrefixSub trimmed "â—¦".data ||
    (decide (trimmed.length > 2) &&
      match trimmed with
      | c0 :: c1 :: _ => ('0' ≤ c0 && c0 ≤ '9') && (c1 = '.' || c1 = ')')
      | _ => false)

/-- The trimmed lines loop of `scoreContentFallback`: count of non-empty lines. -/
def nonEmptyLinesCount (content : GoStr) : Nat :=
  ((splitOnChar '\n' content).map goTrimSpace).countP (· ≠ [])

/-- The trimmed lines loop of `scoreContentFallback`: count of non-empty lines
starting with a bullet marker. -/
def bulletLinesCount (content : GoStr) : Nat :=
  ((splitOnChar '\n' content).map goTrimSpace).countP
    (fun line => line ≠ [] && isBulletLine line)

/-- Content-length block of `scoreContentFallback`: returns the score delta,
the reasons appended, and the categories appended. -/
def lengthBlock (contentLength : Nat) : ℚ × List GoStr × List GoStr :=
  if contentLength < 100 then (-0.3, ["Very short content".data], ["low-quality".data])
  else if contentLength < 500 then (-0.1, ["Short content".data], [])
  else if contentLength > 1000 then
    (0.2, ["Substantial content".data], ["informational".data])
  else (0, [], [])

/-- Word-count block: delta and categories appended. -/
def wordCountBlock (wordCount : Nat) : ℚ × List GoStr :=
  if wordCount < 20 then (-0.2, ["minimal-content".data]) else (0, [])

/-- Bullet-list block: delta, reasons, categories. -/
def bulletBlock (nonEmptyLines bulletLines : Nat) : ℚ × List GoStr × List GoStr :=
  if nonEmptyLines > 5 ∧ bulletLines > 0 then
    let bulletFrac : ℚ := (bulletLines : ℚ) / (nonEmptyLines : ℚ)
    if bulletFrac > 0.6 then
      (-0.3, ["Content is primarily bullet points/list items".data],
        ["sparse-content".data, "low-quality".data])
    else if bulletFrac > 0.4 then
      (-0.15, ["Content contains many bullet points".data], [])
    else (0, [], [])
  else (0, [], [])

/-- Sparse-layout block: delta, reasons, categories. -/
def sparseBlock (contentLength nonEmptyLines : Nat) : ℚ × List GoStr × List GoStr :=
  if nonEmptyLines > 10 then
    let avgLineLength : ℚ := (contentLength : ℚ) / (nonEmptyLines : ℚ)
    if avgLineLength < 30 then
      (-0.2, ["Content has very short lines (sparse layout)".data],
        ["sparse-content".data])
    else (0, [], [])
  else (0, [], [])

/-- Spam-keyword block: delta, reasons, categories, malicious indicators. -/
def spamBlock (contentLower : GoStr) : ℚ × List GoStr × List GoStr × List GoStr :=
  if countSub contentLower "click here".data > 2 ∨
      countSub contentLower "buy now".data > 2 ∨
      countSub contentLower "limited offer".data > 1 then
    (-0.3, ["Spam indicators detected".data], ["spam".data], ["spam_keywords".data])
  else (0, [], [], [])

/-- Excessive-punctuation block: delta and reasons (`wordCount / 10` is Go's
integer division of non-negative counts, i.e. `Nat` division). -/
def exclamationBlock (content : GoStr) (wordCount : Nat) : ℚ × List GoStr :=
  let exclamationCount := countSub content "!".data
  if exclamationCount > wordCount / 10 ∧ exclamationCount > 5 then
    (-0.2, ["Excessive punctuation".data])
  else (0, [])

/-- `qualityDomains` of `scoreContentFallback`. -/
def qualityDomains : List GoStr :=
  [".edu".data, ".gov".data, ".org".data, "wikipedia".data, "arxiv".data,
   "github".data, "stackoverflow".data]

/-- Quality-domain block (the loop breaks on the first match, so the bonus is
applied at most once): delta, reasons, categories. -/
def qualityBlock (urlLower : GoStr) : ℚ × List GoStr × List GoStr :=
  if qualityDomains.any (fun domain => containsSub urlLower domain) then
    (0.3, ["Quality domain detected".data], ["reference".data, "trusted_source".data])
  else (0, [], [])

/-- `technicalKeywords` of `scoreContentFallback`. -/
def technicalKeywords : List GoStr :=
  ["documentation".data, "tutorial".data, "guide".data, "research".data,
   "study".data, "analysis".data, "technical".data]

/-- Technical/educational-keyword block (break on first match): delta and
categories. -/
def technicalBlock (titleLower contentLower : GoStr) : ℚ × List GoStr :=
  if technicalKeywords.any
      (fun keyword => containsSub titleLower keyword || containsSub contentLower keyword) then
    (0.1, ["technical".data, "educational".data])
  else (0, [])

/-- `strings.Join(elems, sep)`. -/
def goJoin (elems : List GoStr) (sep : GoStr) : GoStr :=
  match elems with
  | [] => []
  | e :: rest => rest.foldl (fun acc x => acc ++ sep ++ x) e

/-- `scoreContentFallback` (scraper core), returning
`(score, reason, categories, maliciousIndicators)`.  The blocked-domain branch
returns early — before the clamp, the default-category check and the
normalisation pass — exactly as the naked `return` in the source does.  All
remaining blocks accumulate score deltas, reasons, categories and indicators
in source order; the score is clamped, the reason string built, empty
categories replaced by a default, and categories/indicators normalised. -/
def scoreContentFallback (targetURL title content : GoStr) :
    ℚ × GoStr × List GoStr × List GoStr :=
  let urlLower := goToLower targetURL
  let titleLower := goToLower title
  let contentLower := goToLower content
  match blockedDomains.find? (fun dc => containsSub urlLower dc.1) with
  | some dc =>
    (0.1, "Blocked content type detected: ".data ++ dc.2,
      [dc.2, "low-quality".data], [dc.2])
  | none =>
    let contentLength := content.length
    let wordCount := (goFields content).length
    let lb := lengthBlock contentLength
    let wb := wordCountBlock wordCount
    let bb := bulletBlock (nonEmptyLinesCount content) (bulletLinesCount content)
    let sb := sparseBlock contentLength (nonEmptyLinesCount content)
    let pb := spamBlock contentLower
    let eb := exclamationBlock content wordCount
    let qb := qualityBlock urlLower
    let tb := technicalBlock titleLower contentLower
    let score := clamp01 (0.5 + lb.1 + wb.1 + bb.1 + sb.1 + pb.1 + eb.1 + qb.1 + tb.1)
    let reasons := lb.2.1 ++ bb.2.1 ++ sb.2.1 ++ pb.2.1 ++ eb.2 ++ qb.2.1
    let categories := lb.2.2 ++ wb.2 ++ bb.2.2 ++ sb.2.2 ++ pb.2.2.1 ++ qb.2.2 ++ tb.2
    let maliciousIndicators := pb.2.2.2
    let reason :=
      if reasons = [] then "Rule-based assessment (Ollama unavailable)".data
      else "Rule-based: ".data ++ goJoin reasons "; ".data
    let categories :=
      if categories = [] then
        if score ≥ 0.6 then ["informational".data] else ["general".data]
      else categories
    (score, reason, categories.map normalizeTag, maliciousIndicators.map normalizeTag)

/-! ### Bounds for the fallback score on quality domains -/

theorem clamp01_ge (a q : ℚ) (ha : a ≤ 1) (h : a ≤ q) : a ≤ clamp01 q := by
  unfold clamp01
  dsimp only
  split_ifs <;> linarith

set_option maxRecDepth 40000 in
/-- C3 counterexample: 1100 characters of repeated `click here` lines on a
Wikipedia URL score only 0.5 — the sparse-layout (−0.2) and spam (−0.3)
penalties outweigh the quality-domain bonus — refuting the claim that every
≥1000-character content on a Wikipedia URL scores at least 0.7. -/
theorem scoreContentFallback_wikipedia_not_always_high :
    ¬ (0.7 ≤ (scoreContentFallback "https://en.wikipedia.org/wiki/lists".data
          "List".data ((List.replicate 100 ("click here\n".data)).flatten)).1 ∧
        "reference".data ∈ (scoreContentFallback "https://en.wikipedia.org/wiki/lists".data
          "List".data ((List.replicate 100 ("click here\n".data)).flatten)).2.2.1 ∧
        "trusted-source".data ∈ (scoreContentFallback "https://en.wikipedia.org/wiki/lists".data
          "List".data ((List.replicate 100 ("click here\n".data)).flatten)).2.2.1) := by
  decide

/-- C3 (amended): for a URL containing `wikipedia` (lower-cased) that matches
no blocked-domain substring, and content of at least 1000 characters and at
least 20 words that triggers none of the bullet-list, sparse-layout,
spam-keyword or excessive-punctuation penalties, `scoreContentFallback`
returns a score of at least 0.7 and categories containing `reference` and
`trusted-source`. -/
theorem scoreContentFallback_wikipedia_high (targetURL title content : GoStr)
    (hwiki : containsSub (goToLower targetURL) "wikipedia".data = true)
    (hblocked : blockedDomains.find? (fun dc => containsSub (goToLower targetURL) dc.1) = none)
    (hlen : 1000 ≤ content.length)
    (hwords : 20 ≤ (goFields content).length)
    (hbullet : (bulletBlock (nonEmptyLinesCount content) (bulletLinesCount content)).1 = 0)
    (hsparse : (sparseBlock content.length (nonEmptyLinesCount content)).1 = 0)
    (hspam : (spamBlock (goToLower content)).1 = 0)
    (hexcl : (exclamationBlock content (goFields content).length).1 = 0) :
    0.7 ≤ (scoreContentFallback targetURL title content).1 ∧
      "reference".data ∈ (scoreContentFallback targetURL title content).2.2.1 ∧
      "trusted-source".data ∈ (scoreContentFallback targetURL title content).2.2.1 := by
  have hany : qualityDomains.any (fun domain => containsSub (goToLower targetURL) domain) = true :=
    List.any_eq_true.mpr ⟨"wikipedia".data, by simp [qualityDomains], hwiki⟩
  have hqb : qualityBlock (goToLower targetURL) =
      (0.3, ["Quality domain detected".data],
        ["reference".data, "trusted_source".data]) := by
    unfold qualityBlock
    rw [if_pos hany]
  have hlb : 0 ≤ (lengthBlock content.length).1 := by
    unfold lengthBlock
    rw [if_neg (by omega), if_neg (by omega)]
    split_ifs <;> norm_num
  have hwb : (wordCountBlock (goFields content).length).1 = 0 := by
    unfold wordCountBlock
    rw [if_neg (by omega)]
  have htb : 0 ≤ (technicalBlock (goToLower title) (goToLower content)).1 := by
    unfold technicalBlock
    split_ifs <;> norm_num
  unfold scoreContentFallback
  simp only [hblocked]
  refine ⟨?_, ?_, ?_⟩
  · rw [hbullet, hsparse, hspam, hexcl, hwb, hqb]
    exact clamp01_ge _ _ (by norm_num) (by nlinarith [hlb, htb])
  · rw [hqb]
    have hmem : "reference".data ∈
        (lengthBlock content.length).2.2 ++ (wordCountBlock (goFields content).length).2 ++
          (bulletBlock (nonEmptyLinesCount content) (bulletLinesCount content)).2.2 ++
          (sparseBlock content.length (nonEmptyLinesCount content)).2.2 ++
          (spamBlock (goToLower content)).2.2.1 ++
          ["reference".data, "trusted_source".data] ++
          (technicalBlock (goToLower title) (goToLower content)).2 := by
      simp [List.mem_append]
    rw [if_neg (List.ne_nil_of_mem hmem)]
    exact List.mem_map.mpr ⟨"reference".data, hmem, by decide⟩
  · rw [hqb]
    have hmem : "trusted_source".data ∈
        (lengthBlock content.length).2.2 ++ (wordCountBlock (goFields content).length).2 ++
          (bulletBlock (nonEmptyLinesCount content) (bulletLinesCount content)).2.2 ++
          (sparseBlock content.length (nonEmptyLinesCount content)).2.2 ++
          (spamBlock (goToLower content)).2.2.1 ++
          ["reference".data, "trusted_source".data] ++
          (technicalBlock (goToLower title) (goToLower content)).2 := by
      simp [List.mem_append]
    rw [if_neg (List.ne_nil_of_mem hmem)]
    exact List.mem_map.mpr ⟨"trusted_source".data, hmem, by decide⟩

set_option maxRecDepth 40000 in
/-- Witness for the amended C3: 201 repetitions of `word ` (1005 characters,
201 words, one line) on a Wikipedia URL score 1.0 with categories
`informational`, `reference`, `trusted-source`. -/
theorem scoreContentFallback_wikipedia_high_witness :
    0.7 ≤ (scoreContentFallback "https://en.wikipedia.org/wiki/lean".data
        "Lean".data ((List.replicate 201 ("word ".data)).flatten)).1 ∧
      "reference".data ∈ (scoreContentFallback "https://en.wikipedia.org/wiki/lean".data
        "Lean".data ((List.replicate 201 ("word ".data)).flatten)).2.2.1 ∧
      "trusted-source".data ∈ (scoreContentFallback "https://en.wikipedia.org/wiki/lean".data
        "Lean".data ((List.replicate 201 ("word ".data)).flatten)).2.2.1 :=
  scoreContentFallback_wikipedia_high _ _ _ (by decide) (by decide) (by decide)
    (by decide) (by decide) (by decide) (by decide) (by decide)

/-! ## URL parsing (the subset of `net/url.Parse` this repository exercises) -/

/-- Result of `url.Parse` as used by the scraper: scheme, host, path and raw
query. -/
structure GoURL where
  scheme : GoStr
  host : GoStr
  path : GoStr
  rawQuery : GoStr
  deriving DecidableEq

/-- Split `s` at the first occurrence of `pat`: the part before and the part
after the occurrence, or `none` if `pat` does not occur. -/
def splitOnFirstSub : GoStr → GoStr → Option (GoStr × GoStr)
  | [], pat => if pat.isPrefixOf ([] : GoStr) then some ([], []) else none
  | c :: rest, pat =>
    if pat.isPrefixOf (c :: rest) then some ([], (c :: rest).drop pat.length)
    else (splitOnFirstSub rest pat).map fun pr => (c :: pr.1, pr.2)

/-- Modelled subset of `net/url.Parse` covering the URL shapes this repository
handles: an optional fragment is cut at the first `#`; with a `scheme://`
prefix the host extends to the first `/` or `?` and the path from there to the
`?`; without `://` the whole remainder is the path with empty scheme and host
(as for Go relative references).  Percent-escapes, user info, ports and opaque
`scheme:` URLs are not modelled — none of the URLs this code base feeds in use
them.  Go's parser errors only on malformed inputs (control characters,
invalid escapes) that are likewise out of scope, so the model always
succeeds; the `Option` mirrors the `(url, err)` shape of the call sites. -/
def parseURL (s : GoStr) : Option GoURL :=
  let beforeFrag := match splitOnFirstSub s "#".data with
    | some pr => pr.1
    | none => s
  match splitOnFirstSub beforeFrag "://".data with
  | some (scheme, rest) =>
    let hostRest := rest.span fun c => !(c = '/' || c = '?')
    match splitOnFirstSub hostRest.2 "?".data with
    | some (path, q) => some ⟨goToLower scheme, hostRest.1, path, q⟩
    | none => some ⟨goToLower scheme, hostRest.1, hostRest.2, []⟩
  | none =>
    match splitOnFirstSub beforeFrag "?".data with
    | some (path, q) => some ⟨[], [], path, q⟩
    | none => some ⟨[], [], beforeFrag, []⟩

/-- `strings.TrimPrefix`. -/
def trimPrefixSub (s pat : GoStr) : GoStr :=
  if pat.isPrefixOf s then s.drop pat.length else s

/-- `url.Values.Get(key)` over the raw query: split on `&`, each pair on the
first `=`, first matching key wins, absent key yields the empty string.
(Percent-decoding is not modelled.) -/
def queryGet (rawQuery key : GoStr) : GoStr :=
  let lookup := (splitOnChar '&' rawQuery).findSome? fun pair =>
    match splitOnFirstSub pair "=".data with
    | some (k, v) => if k = key then some v else none
    | none => if pair = key then some ([] : GoStr) else none
  match lookup with
  | some v => v
  | none => []

/-! ## Direct-image URL detection (`isImageURL`, scraper core) -/

/-- `imageExtensions` of `isImageURL`. -/
def imageExtensions : List GoStr :=
  [".jpg".data, ".jpeg".data, ".png".data, ".gif".data, ".bmp".data,
   ".webp".data, ".svg".data, ".ico".data, ".tiff".data, ".tif".data]

/-- `formatParams` of `isImageURL`. -/
def formatParams : List GoStr :=
  ["fm".data, "format".data, "ext".data, "f".data]

/-- `imageHosts` of `isImageURL`. -/
def imageHosts : List GoStr :=
  ["images.unsplash.com".data, "i.imgur.com".data, "cdn.pixabay.com".data,
   "images.pexels.com".data, "source.unsplash.com".data]

/-- `isImageURL` (scraper core): a URL points directly at an image when its
path ends in an image extension, an image-format query parameter is present,
or the host is a known image host (exactly or as a subdomain). -/
def isImageURL (targetURL : GoStr) : Bool :=
  match parseURL targetURL with
  | none => false
  | some parsedURL =>
    let pathLower := goToLower parsedURL.path
    (imageExtensions.any fun ext => hasSuffixSub pathLower ext) ||
    (formatParams.any fun param =>
      let value := queryGet parsedURL.rawQuery param
      value != [] && imageExtensions.any fun ext =>
        let valueLower := goToLower value
        let extWithoutDot := trimPrefixSub ext ".".data
        valueLower == extWithoutDot || hasPrefixSub valueLower extWithoutDot) ||
    (let hostLower := goToLower parsedURL.host
     imageHosts.any fun imageHost =>
       hostLower == imageHost || hasSuffixSub hostLower ('.' :: imageHost))

/-! ## Pre-fetch prefix of `ScoreLinkContent` (scraper core) -/

/-- Outcome of the pre-fetch prefix of `ScoreLinkContent`: an error, an early
`LinkScore`, or the point where the source would fetch the page over the
network (not modelled — everything before it is). -/
inductive ScoreLinkOutcome where
  | failure (msg : GoStr)
  | result (ls : LinkScore)
  | fetchesPage
  deriving DecidableEq

/-- The pre-fetch prefix of `ScoreLinkContent`: parse the URL, require an
`http`/`https` scheme, and return the fixed image `LinkScore` — without any
network fetch — when `isImageURL` holds. -/
def scoreLinkContentEarly (targetURL : GoStr) : ScoreLinkOutcome :=
  match parseURL targetURL with
  | none => .failure "invalid URL".data
  | some parsedURL =>
    if parsedURL.scheme ≠ "http".data ∧ parsedURL.scheme ≠ "https".data then
      .failure "URL must be http or https".data
    else if isImageURL targetURL then
      .result
        { url := targetURL
          score := 0
          reason := "Image file detected - skipping content scoring".data
          categories := ["image".data, "media".data]
          isRecommended := false
          maliciousIndicators := []
          aiUsed := false }
    else .fetchesPage

/-! ## Category-page detection (`isCategoryPage`, scraper core) -/

/-- `categoryIndicators` of `isCategoryPage`. -/
def categoryIndicators : List GoStr :=
  ["section".data, "sections".data, "category".data, "categories".data,
   "topic".data, "topics".data, "tag".data, "tags".data, "archive".data,
   "archives".data, "index".data]

/-- `newsSections` of `isCategoryPage`, in source order (including the
duplicated technology line present in the source). -/
def newsSections : List GoStr :=
  ["news".data, "world".data, "national".data, "local".data, "us".data,
   "uk".data, "international".data, "global".data,
   "politics".data, "political".data, "government".data, "policy".data,
   "business".data, "finance".data, "economy".data, "markets".data, "money".data,
   "technology".data, "tech".data, "science".data, "innovation".data,
   "technology".data, "tech".data, "science".data, "innovation".data,
   "health".data, "medical".data, "wellness".data, "healthcare".data,
   "sports".data, "sport".data, "football".data, "basketball".data,
   "baseball".data, "soccer".data,
   "entertainment".data, "culture".data, "arts".data, "music".data,
   "movies".data, "film".data, "tv".data, "television".data,
   "lifestyle".data, "life".data, "living".data, "fashion".data, "food".data,
   "travel".data, "style".data,
   "opinion".data, "opinions".data, "editorial".data, "editorials".data,
   "commentary".data, "columnists".data,
   "investigations".data, "analysis".data, "features".data, "special-reports".data,
   "environment".data, "climate".data, "weather".data, "energy".data,
   "education".data, "schools".data, "university".data, "college".data,
   "crime".data, "law".data, "justice".data, "courts".data,
   "religion".data, "faith".data, "beliefs".data,
   "obituaries".data, "obits".data, "deaths".data,
   "asia".data, "europe".data, "africa".data, "americas".data,
   "middle-east".data, "middleeast".data,
   "asia-pacific".data, "latin-america".data, "north-america".data,
   "south-america".data,
   "england".data, "scotland".data, "wales".data, "northern-ireland".data,
   "us-canada".data, "latin-america".data, "middle-east-asia".data,
   "video".data, "videos".data, "podcasts".data, "audio".data,
   "multimedia".data, "gallery".data, "galleries".data,
   "photos".data, "pictures".data, "images".data,
   "today".data, "latest".data, "breaking".data, "live".data, "now".data,
   "updates".data]

/-- Strip the common file extensions `isCategoryPage` removes from a path
segment before matching, in source order. -/
def stripSegmentExtensions (segmentLower : GoStr) : GoStr :=
  let s := trimSuffixSub segmentLower ".html".data
  let s := trimSuffixSub s ".htm".data
  let s := trimSuffixSub s ".php".data
  let s := trimSuffixSub s ".asp".data
  trimSuffixSub s ".aspx".data

/-- Number of decimal digit runes in a segment. -/
def digitCount (s : GoStr) : Nat :=
  s.countP fun c => '0' ≤ c && c ≤ '9'

/-- Does `strconv.Atoi` succeed on this string?  (An optional sign followed by
at least one digit; 64-bit overflow is not modelled — the call sites only pass
4-character path segments.) -/
def goAtoiOk (s : GoStr) : Bool :=
  match s with
  | [] => false
  | '+' :: rest => rest != [] && rest.all fun c => '0' ≤ c && c ≤ '9'
  | '-' :: rest => rest != [] && rest.all fun c => '0' ≤ c && c ≤ '9'
  | _ => s.all fun c => '0' ≤ c && c ≤ '9'

/-- `isCategoryPage` (scraper core): detects category/section landing pages
from the URL path, mirroring the source's sequence of checks — empty path,
category indicators, article patterns (which force a negative verdict),
section-name fractions, `/indicator/value` pairs, and year-based archives. -/
def isCategoryPage (targetURL : GoStr) : Bool :=
  match parseURL targetURL with
  | none => false
  | some parsedURL =>
    let path := goTrim parsedURL.path ['/']
    if path = [] then false
    else
      let segments := splitOnChar '/' path
      if segments.any (fun segment =>
          let segmentLower := stripSegmentExtensions (goToLower segment)
          categoryIndicators.any fun indicator =>
            segmentLower == indicator ||
            hasPrefixSub segmentLower (indicator ++ "-".data) ||
            hasPrefixSub segmentLower (indicator ++ "_".data)) then
        true
      else
        let hasArticlePattern := segments.any fun segment =>
          let segmentLower := goToLower segment
          segmentLower == "articles".data || segmentLower == "article".data ||
          segmentLower == "story".data ||
          (decide (segmentLower.length ≥ 8) && decide (digitCount segmentLower ≥ 8))
        if hasArticlePattern then false
        else
          let sectionVerdict :=
            if segments.length ≤ 4 then
              let sectionMatchCount := (segments.filter fun segment =>
                let segmentLower := stripSegmentExtensions (goToLower segment)
                newsSections.any fun sec =>
                  segmentLower == sec ||
                  hasPrefixSub segmentLower (sec ++ "-".data) ||
                  hasPrefixSub segmentLower (sec ++ "_".data) ||
                  (decide (sec.length ≥ 4) && hasPrefixSub segmentLower sec)).length
              (decide (segments.length ≤ 2) && decide (sectionMatchCount = segments.length)) ||
              (decide (segments.length = 3) && decide (sectionMatchCount ≥ 2)) ||
              (decide (segments.length = 4) && decide (sectionMatchCount ≥ 3))
            else false
          if sectionVerdict then true
          else if decide (segments.length = 2) &&
              (match segments.head? with
               | some first => categoryIndicators.any fun indicator =>
                   goToLower first == indicator
               | none => false) then
            true
          else if 1 ≤ segments.length ∧ segments.length ≤ 3 then
            match segments.head? with
            | some seg0 =>
              if decide (seg0.length = 4) && goAtoiOk seg0 then
                if segments.length ≤ 2 then true
                else segments.all goAtoiOk
              else false
            | none => false
          else false

/-! ### Early return for direct image URLs, and category-page examples -/

/-- C5: for every URL that parses with an `http`/`https` scheme and points
directly at an image (`isImageURL` holds), `ScoreLinkContent` returns —
before any page fetch — a `LinkScore` with score 0.0, the fixed image reason,
categories `image`/`media`, not recommended, no malicious indicators, and
`AIUsed = false`. -/
theorem scoreLinkContent_image_early_return (targetURL : GoStr) (u : GoURL)
    (hparse : parseURL targetURL = some u)
    (hscheme : u.scheme = "http".data ∨ u.scheme = "https".data)
    (himg : isImageURL targetURL = true) :
    scoreLinkContentEarly targetURL =
      ScoreLinkOutcome.result
        ⟨targetURL, 0, "Image file detected - skipping content scoring".data,
          ["image".data, "media".data], false, [], false⟩ := by
  unfold scoreLinkContentEarly
  simp only [hparse]
  have hnot : ¬(u.scheme ≠ "http".data ∧ u.scheme ≠ "https".data) := by
    rcases hscheme with h | h <;> simp [h]
  rw [if_neg hnot, if_pos himg]

/-- Witness for C5 at a concrete image URL. -/
theorem scoreLinkContent_image_early_return_witness :
    scoreLinkContentEarly "https://example.com/photo.jpg".data =
      ScoreLinkOutcome.result
        ⟨"https://example.com/photo.jpg".data, 0,
          "Image file detected - skipping content scoring".data,
          ["image".data, "media".data], false, [], false⟩ :=
  scoreLinkContent_image_early_return _
    ⟨"https".data, "example.com".data, "/photo.jpg".data, []⟩
    (by decide) (by decide) (by decide)

/-- C6: `isCategoryPage` judges `https://www.bbc.com/arts` a category page,
judges `https://www.bbc.com/news/world-middle-east-12345678` not one (the
8-digit article id forces the negative verdict), and judges the bare homepage
`https://www.bbc.com` not one (empty path). -/
theorem isCategoryPage_bbc_examples :
    isCategoryPage "https://www.bbc.com/arts".data = true ∧
      isCategoryPage "https://www.bbc.com/news/world-middle-east-12345678".data = false ∧
      isCategoryPage "https://www.bbc.com".data = false := by
  decide

/-! ## Persistence layer (`package db`) -/

/-- `models.ScrapedData`, restricted to the fields the persistence operations
verified here touch; the `data` JSON blob is modelled by carrying the record
itself. -/
structure ScrapedData where
  id : GoStr := []
  url : GoStr := []
  title : GoStr := []
  content : GoStr := []
  images : List ImageInfo := []
  links : List GoStr := []
  fetchedAt : Int := 0
  slug : GoStr := []
  deriving DecidableEq

/-- A row of the `scraped_data` table. -/
structure ScrapeRow where
  id : GoStr
  url : GoStr
  data : ScrapedData
  slug : GoStr
  createdAt : Int
  updatedAt : Int
  deriving DecidableEq

/-- A row of the `images` table (fully columnar). -/
structure ImageRow where
  id : GoStr
  scrapeId : GoStr
  url : GoStr
  altText : GoStr
  summary : GoStr
  tags : List GoStr
  extractedText : Option GoStr
  base64Data : GoStr
  filePath : GoStr
  slug : GoStr
  width : Int
  height : Int
  fileSizeBytes : Int
  contentType : GoStr
  exifData : Option GoStr
  relevanceScore : ℚ
  tombstoneDatetime : Option Int
  createdAt : Int
  updatedAt : Int
  deriving DecidableEq

/-- The two tables of the store. -/
structure DBState where
  scrapedData : List ScrapeRow
  images : List ImageRow
  deriving DecidableEq

/-- The column values `SaveScrapedData` inserts for one image.  Its INSERT
statement omits the `extracted_text` and `relevance_score` columns, which
therefore take the schema defaults (NULL and 0.5), and never sets a
tombstone. -/
def imageRowOfSave (now : Int) (scrapeId : GoStr) (image : ImageInfo) : ImageRow where
  id := image.id
  scrapeId := scrapeId
  url := image.url
  altText := image.altText
  summary := image.summary
  tags := image.tags
  extractedText := none
  base64Data := image.base64Data
  filePath := image.filePath
  slug := image.slug
  width := image.width
  height := image.height
  fileSizeBytes := image.fileSizeBytes
  contentType := image.contentType
  exifData := image.exifData
  relevanceScore := 0.5
  tombstoneDatetime := none
  createdAt := now
  updatedAt := now

/-- `SaveScrapedData` (db.go): the committed effect of the transaction —
(1) `INSERT … ON CONFLICT(url) DO UPDATE SET id, data, slug, updated_at`
(`created_at` is `data.FetchedAt` on a fresh insert and untouched on
conflict), then (2) `DELETE FROM images WHERE scrape_id = data.ID`, then
(3) one image INSERT per entry of `data.Images`, defensively skipping images
with an empty `ID`.  SQL error paths are not modelled. -/
def saveScrapedData (now : Int) (st : DBState) (data : ScrapedData) : DBState :=
  let scrapes :=
    if st.scrapedData.any fun row => row.url = data.url then
      st.scrapedData.map fun row =>
        if row.url = data.url then
          { row with id := data.id, data := data, slug := data.slug, updatedAt := now }
        else row
    else
      st.scrapedData ++ [⟨data.id, data.url, data, data.slug, data.fetchedAt, now⟩]
  let images := st.images.filter fun img => img.scrapeId ≠ data.id
  let images := images ++
    (data.images.filter fun image => image.id ≠ []).map (imageRowOfSave now data.id)
  ⟨scrapes, images⟩

/-- Step (a) of the spec sentence: "an upsert of the record by URL". -/
def upsertByURL (now : Int) (rows : List ScrapeRow) (data : ScrapedData) :
    List ScrapeRow :=
  if rows.any fun row => row.url = data.url then
    rows.map fun row =>
      if row.url = data.url then
        { row with id := data.id, data := data, slug := data.slug, updatedAt := now }
      else row
  else
    rows ++ [⟨data.id, data.url, data, data.slug, data.fetchedAt, now⟩]

/-- Step (b) of the spec sentence: "deletion of all image rows whose
scrape_id equals the record's id". -/
def deleteImagesOfScrape (rows : List ImageRow) (scrapeId : GoStr) : List ImageRow :=
  rows.filter fun img => img.scrapeId ≠ scrapeId

/-- `SaveScrapedData` as the claim words it: upsert by URL, delete the
record's image rows, then insert one image row for **every** image in the
record's `Images` list. -/
def specSaveScrapedData (now : Int) (st : DBState) (data : ScrapedData) : DBState :=
  ⟨upsertByURL now st.scrapedData data,
    deleteImagesOfScrape st.images data.id ++ data.images.map (imageRowOfSave now data.id)⟩

/-- `SaveScrapedData` as amended: step (c) inserts one image row for every
image in the record's `Images` list **that has a non-empty ID**. -/
def specSaveScrapedDataAmended (now : Int) (st : DBState) (data : ScrapedData) : DBState :=
  ⟨upsertByURL now st.scrapedData data,
    deleteImagesOfScrape st.images data.id ++
      (data.images.filter fun image => image.id ≠ []).map (imageRowOfSave now data.id)⟩

/-- C2 counterexample: on the empty store, saving a record whose single image
has an empty ID inserts no image row, while the claim's step (c) would insert
one — the code and the claimed behaviour differ. -/
theorem saveScrapedData_ne_spec_on_empty_id :
    saveScrapedData 0 ⟨[], []⟩
        { id := "s1".data, url := "http://e.com/a".data,
          images := [{ url := "http://e.com/i.png".data }] } ≠
      specSaveScrapedData 0 ⟨[], []⟩
        { id := "s1".data, url := "http://e.com/a".data,
          images := [{ url := "http://e.com/i.png".data }] } := by
  decide

/-- C2 (amended): for every prior store state and record, `SaveScrapedData`
performs, in one transaction, exactly the upsert by URL, the deletion of the
record's image rows, and the insertion of one image row per image with a
non-empty ID. -/
theorem saveScrapedData_eq_spec_steps (now : Int) (st : DBState) (data : ScrapedData) :
    saveScrapedData now st data = specSaveScrapedDataAmended now st data := rfl

/-! ## Tombstoning (`TombstoneImageByID` / `UntombstoneImageByID`, db.go) -/

/-- `90 * 24 * time.Hour` as nanoseconds (Go's `time.Duration` unit). -/
def tombstoneOffset : Int := 90 * 24 * 3600 * 1000000000

/-- `TombstoneImageByID` (db.go): `UPDATE images SET tombstone_datetime = $1
WHERE id = $2` with `$1 = time.Now().UTC().Add(90 * 24 * time.Hour)`; an
error (`some msg`) is returned exactly when zero rows were affected. -/
def tombstoneImageByID (now : Int) (st : DBState) (id : GoStr) :
    Option GoStr × DBState :=
  let tombstoneTime := now + tombstoneOffset
  let images := st.images.map fun img =>
    if img.id = id then { img with tombstoneDatetime := some tombstoneTime } else img
  let rowsAffected := st.images.countP fun img => img.id == id
  if rowsAffected = 0 then
    (some ("no image found with id: ".data ++ id), ⟨st.scrapedData, images⟩)
  else (none, ⟨st.scrapedData, images⟩)

/-- `UntombstoneImageByID` (db.go): `UPDATE images SET tombstone_datetime =
NULL WHERE id = $1`; errors exactly when zero rows were affected. -/
def untombstoneImageByID (st : DBState) (id : GoStr) : Option GoStr × DBState :=
  let images := st.images.map fun img =>
    if img.id = id then { img with tombstoneDatetime := none } else img
  let rowsAffected := st.images.countP fun img => img.id == id
  if rowsAffected = 0 then
    (some ("no image found with id: ".data ++ id), ⟨st.scrapedData, images⟩)
  else (none, ⟨st.scrapedData, images⟩)

theorem list_map_eq_self {α : Type _} {l : List α} {f : α → α}
    (h : ∀ x ∈ l, f x = x) : l.map f = l := by
  induction l with
  | nil => rfl
  | cons a t ih =>
    simp only [List.map_cons, List.cons.injEq]
    exact ⟨h a (List.mem_cons_self a t), ih fun x hx => h x (List.mem_cons_of_mem a hx)⟩

/-- C7: tombstoning sets the timestamp of every row with the given id to
now + 90 days and untombstoning clears it; both return an error exactly when
no row with that id exists (zero rows affected), and in that case the store
is unchanged. -/
theorem tombstone_untombstone_spec (now : Int) (st : DBState) (id : GoStr) :
    (∀ img ∈ (tombstoneImageByID now st id).2.images, img.id = id →
        img.tombstoneDatetime = some (now + 90 * 24 * 3600 * 1000000000)) ∧
      (∀ img ∈ (untombstoneImageByID st id).2.images, img.id = id →
        img.tombstoneDatetime = none) ∧
      ((tombstoneImageByID now st id).1 ≠ none ↔ ¬ ∃ img ∈ st.images, img.id = id) ∧
      ((untombstoneImageByID st id).1 ≠ none ↔ ¬ ∃ img ∈ st.images, img.id = id) ∧
      ((tombstoneImageByID now st id).1 ≠ none → (tombstoneImageByID now st id).2 = st) ∧
      ((untombstoneImageByID st id).1 ≠ none → (untombstoneImageByID st id).2 = st) := by
  have hcount : (st.images.countP fun img => img.id == id) = 0 ↔
      ¬ ∃ img ∈ st.images, img.id = id := by
    rw [List.countP_eq_zero]
    constructor
    · rintro h ⟨img, hmem, hid⟩
      exact absurd (by simpa using hid) (by simpa using h img hmem)
    · intro h img hmem
      by_contra hc
      exact h ⟨img, hmem, by simpa using hc⟩
  have hid_map_eq : (st.images.countP fun img => img.id == id) = 0 →
      ∀ (f : ImageRow → ImageRow),
        (st.images.map fun img => if img.id = id then f img else img) = st.images := by
    intro h0 f
    apply list_map_eq_self
    intro x hx
    rw [if_neg]
    intro hxid
    exact (hcount.mp h0) ⟨x, hx, hxid⟩
  refine ⟨?_, ?_, ?_, ?_, ?_, ?_⟩
  · intro img hmem hid
    unfold tombstoneImageByID at hmem
    dsimp only at hmem
    split_ifs at hmem <;>
    · obtain ⟨x, hx, rfl⟩ := List.mem_map.mp hmem
      by_cases h : x.id = id
      · simp only [if_pos h]
        norm_num [tombstoneOffset]
      · rw [if_neg h] at hid ⊢
        exact absurd hid h
  · intro img hmem hid
    unfold untombstoneImageByID at hmem
    dsimp only at hmem
    split_ifs at hmem <;>
    · obtain ⟨x, hx, rfl⟩ := List.mem_map.mp hmem
      by_cases h : x.id = id
      · simp [if_pos h]
      · rw [if_neg h] at hid ⊢
        exact absurd hid h
  · unfold tombstoneImageByID
    dsimp only
    split_ifs with h0
    · simpa using hcount.mp h0
    · simpa using fun hex => h0 (hcount.mpr hex)
  · unfold untombstoneImageByID
    dsimp only
    split_ifs with h0
    · simpa using hcount.mp h0
    · simpa using fun hex => h0 (hcount.mpr hex)
  · unfold tombstoneImageByID
    dsimp only
    split_ifs with h0
    · intro _
      rw [hid_map_eq h0]
    · simp
  · unfold untombstoneImageByID
    dsimp only
    split_ifs with h0
    · intro _
      rw [hid_map_eq h0]
    · simp

/-- Witness for C7: on the empty store both operations report the
zero-rows-affected error. -/
theorem tombstone_untombstone_spec_witness :
    (tombstoneImageByID 0 ⟨[], []⟩ "img-1".data).1 ≠ none :=
  (tombstone_untombstone_spec 0 ⟨[], []⟩ "img-1".data).2.2.1.mpr (by decide)

/-! ## Filesystem storage (`package storage`) -/

/-- The files under the storage base path, keyed by their path relative to it.
(`SaveImage` joins the base path on and `filepath.Rel` strips it again before
returning, so the base prefix is elided from the model; the slug inputs are
path-clean, making `filepath.Join` plain separator concatenation.)  File
contents are byte lists. -/
abbrev FileSys := List (GoStr × List Nat)

/-- `fileExists` (storage): does a file exist at this path? -/
def fileExists (fs : FileSys) (path : GoStr) : Bool :=
  (fs.find? fun entry => entry.1 == path).isSome

/-- `os.WriteFile`: create the file or overwrite an existing one. -/
def writeFile (fs : FileSys) (path : GoStr) (data : List Nat) : FileSys :=
  (path, data) :: fs.filter fun entry => entry.1 != path

/-- `os.ReadFile` as used by `ReadImage`; `none` models the read error. -/
def readImage (fs : FileSys) (relPath : GoStr) : Option (List Nat) :=
  (fs.find? fun entry => entry.1 == relPath).map fun entry => entry.2

/-- `extensionFromContentType` (storage): normalise the content type (drop
parameters after `;`, lowercase, trim) and map it to an extension; unknown
types give the empty string. -/
def extensionFromContentType (contentType : GoStr) : GoStr :=
  let ct := goTrimSpace (goToLower (match splitOnChar ';' contentType with
    | [] => []
    | first :: _ => first))
  if ct = "image/jpeg".data ∨ ct = "image/jpg".data then ".jpg".data
  else if ct = "image/png".data then ".png".data
  else if ct = "image/gif".data then ".gif".data
  else if ct = "image/webp".data then ".webp".data
  else if ct = "image/svg+xml".data then ".svg".data
  else if ct = "image/bmp".data then ".bmp".data
  else if ct = "image/tiff".data then ".tiff".data
  else []

/-- The extension `SaveImage` actually uses: the content-type extension,
defaulting to `.jpg` when the type is unrecognised. -/
def saveExt (contentType : GoStr) : GoStr :=
  let e := extensionFromContentType contentType
  if e = [] then ".jpg".data else e

/-- Decimal digits of a non-negative integer, as `fmt.Sprintf("%d")` prints
it; fuelled recursion (`n` itself always suffices as fuel). -/
def natReprAux : Nat → Nat → GoStr
  | 0, _ => []
  | fuel + 1, n =>
    if n = 0 then [] else natReprAux fuel (n / 10) ++ [Char.ofNat (48 + n % 10)]

/-- `fmt.Sprintf("%d", n)` for a non-negative value. -/
def natRepr (n : Nat) : GoStr :=
  if n = 0 then ['0'] else natReprAux n n

/-- `fmt.Sprintf("%0*d")`: left-pad the decimal digits with zeros. -/
def padNat (width n : Nat) : GoStr :=
  let s := natRepr n
  List.replicate (width - s.length) '0' ++ s

/-- The `images/{YYYY}/{MM}/` directory for the save time
(`fmt.Sprintf("%04d", year)`, `fmt.Sprintf("%02d", month)`). -/
def imagesDir (year month : Nat) : GoStr :=
  "images/".data ++ padNat 4 year ++ "/".data ++ padNat 2 month ++ "/".data

/-- The file paths tried by the collision loop of `SaveImage`:
`slug.ext` first, then `slug-1.ext`, `slug-2.ext`, …. -/
def candidatePath (dir slug ext : GoStr) : Nat → GoStr
  | 0 => dir ++ slug ++ ext
  | n + 1 => dir ++ slug ++ "-".data ++ natRepr (n + 1) ++ ext

/-- The collision loop of `SaveImage` (`for fileExists(filePath) { counter++ }`),
with fuel: `fs.length + 1` iterations always suffice because each iteration
requires a distinct existing file. -/
def findFreeAux (fs : FileSys) (dir slug ext : GoStr) : Nat → Nat → Nat
  | 0, k => k
  | fuel + 1, k =>
    if fileExists fs (candidatePath dir slug ext k) then
      findFreeAux fs dir slug ext fuel (k + 1)
    else k

/-- `SaveImage` (filesystem storage): derive the extension, build
`images/YYYY/MM/slug{-n}ext` resolving collisions with the `-{n}` counter
suffix, write the bytes, and return the relative path.  `time.Now()` is the
explicit `(year, month)` pair; `os.MkdirAll` has no observable effect here. -/
def saveImage (fs : FileSys) (year month : Nat) (imageData : List Nat)
    (slug contentType : GoStr) : GoStr × FileSys :=
  let ext := saveExt contentType
  let dir := imagesDir year month
  let relPath := candidatePath dir slug ext
    (findFreeAux fs dir slug ext (fs.length + 1) 0)
  (relPath, writeFile fs relPath imageData)

/-! ### Collision handling of `SaveImage` -/

theorem candidatePath_zero_ne_one (dir slug ext : GoStr) :
    candidatePath dir slug ext 0 ≠ candidatePath dir slug ext 1 := by
  intro h
  have hlen := congrArg List.length h
  have hn : natRepr 1 = ['1'] := by decide
  simp [candidatePath, hn] at hlen
  omega

/-- C9: saving two byte payloads under the same slug and content type into an
empty store yields two distinct relative paths — the second carrying the `-1`
counter suffix — and reading each path back yields exactly the bytes saved
there. -/
theorem saveImage_two_payloads_distinct (d1 d2 : List Nat) (slug contentType : GoStr)
    (year month : Nat) (_hne : d1 ≠ d2) :
    (saveImage [] year month d1 slug contentType).1 ≠
        (saveImage (saveImage [] year month d1 slug contentType).2
          year month d2 slug contentType).1 ∧
      (saveImage (saveImage [] year month d1 slug contentType).2
          year month d2 slug contentType).1 =
        imagesDir year month ++ slug ++ "-1".data ++ saveExt contentType ∧
      readImage (saveImage (saveImage [] year month d1 slug contentType).2
          year month d2 slug contentType).2
        (saveImage [] year month d1 slug contentType).1 = some d1 ∧
      readImage (saveImage (saveImage [] year month d1 slug contentType).2
          year month d2 slug contentType).2
        (saveImage (saveImage [] year month d1 slug contentType).2
          year month d2 slug contentType).1 = some d2 := by
  have hr1 : saveImage [] year month d1 slug contentType =
      (candidatePath (imagesDir year month) slug (saveExt contentType) 0,
        [(candidatePath (imagesDir year month) slug (saveExt contentType) 0, d1)]) := by
    unfold saveImage findFreeAux writeFile fileExists
    rfl
  have hc01 := candidatePath_zero_ne_one (imagesDir year month) slug (saveExt contentType)
  have hbeq : (candidatePath (imagesDir year month) slug (saveExt contentType) 0 ==
      candidatePath (imagesDir year month) slug (saveExt contentType) 1) = false :=
    beq_eq_false_iff_ne.mpr hc01
  have hbeq' : (candidatePath (imagesDir year month) slug (saveExt contentType) 1 ==
      candidatePath (imagesDir year month) slug (saveExt contentType) 0) = false :=
    beq_eq_false_iff_ne.mpr (Ne.symm hc01)
  have hr2 : saveImage (saveImage [] year month d1 slug contentType).2
      year month d2 slug contentType =
      (candidatePath (imagesDir year month) slug (saveExt contentType) 1,
        [(candidatePath (imagesDir year month) slug (saveExt contentType) 1, d2),
          (candidatePath (imagesDir year month) slug (saveExt contentType) 0, d1)]) := by
    rw [hr1]
    unfold saveImage
    have hfind : findFreeAux
        [(candidatePath (imagesDir year month) slug (saveExt contentType) 0, d1)]
        (imagesDir year month) slug (saveExt contentType) 2 0 = 1 := by
      simp [findFreeAux, fileExists, hbeq]
    dsimp only
    rw [show ([(candidatePath (imagesDir year month) slug (saveExt contentType) 0,
        d1)] : FileSys).length + 1 = 2 from rfl, hfind]
    unfold writeFile
    simp [hbeq', hc01]
  have hc1 : candidatePath (imagesDir year month) slug (saveExt contentType) 1 =
      imagesDir year month ++ slug ++ "-1".data ++ saveExt contentType := by
    have hn : natRepr 1 = ['1'] := by decide
    simp [candidatePath, hn]
  refine ⟨?_, ?_, ?_, ?_⟩
  · rw [hr2, hr1]
    exact hc01
  · rw [hr2]
    exact hc1
  · rw [hr2, hr1]
    unfold readImage
    simp [List.find?, hbeq']
  · rw [hr2]
    unfold readImage
    simp [List.find?]

/-- Witness for C9 at concrete payloads, slug and content type. -/
theorem saveImage_two_payloads_distinct_witness :
    (saveImage [] 2024 5 [1] "cat".data "image/png".data).1 ≠
        (saveImage (saveImage [] 2024 5 [1] "cat".data "image/png".data).2
          2024 5 [2] "cat".data "image/png".data).1 ∧
      (saveImage (saveImage [] 2024 5 [1] "cat".data "image/png".data).2
          2024 5 [2] "cat".data "image/png".data).1 =
        imagesDir 2024 5 ++ "cat".data ++ "-1".data ++ saveExt "image/png".data ∧
      readImage (saveImage (saveImage [] 2024 5 [1] "cat".data "image/png".data).2
          2024 5 [2] "cat".data "image/png".data).2
        (saveImage [] 2024 5 [1] "cat".data "image/png".data).1 = some [1] ∧
      readImage (saveImage (saveImage [] 2024 5 [1] "cat".data "image/png".data).2
          2024 5 [2] "cat".data "image/png".data).2
        (saveImage (saveImage [] 2024 5 [1] "cat".data "image/png".data).2
          2024 5 [2] "cat".data "image/png".data).1 = some [2] :=
  saveImage_two_payloads_distinct [1] [2] "cat".data "image/png".data 2024 5 (by decide)

end Scraper
